/-
Verification of the sync reconciliation engine
(`bot/exts/backend/sync/_syncers.py`).

The Python module is shallowly embedded below:
  * `_Role` and `_Diff` namedtuples become structures (`Role`, `Diff`);
  * `RoleSyncer._get_diff` works on Python sets of hashable role tuples,
    embedded as `Finset Role` with the same set operations;
  * `UserSyncer._get_diff` loops over backend user records, embedded as a
    per-record function (`user_update_for`) combined by `List.filterMap`,
    plus the `seen_guild_users` set (`seen_ids`);
  * `UserSyncer._get_users` is an async generator following `next_page_no`
    cursors; it is embedded with explicit fuel (`get_users_loop`);
  * the write calls of `RoleSyncer._sync` / `UserSyncer._sync` are embedded
    as call lists (`role_calls`, `user_calls`) run sequentially through an
    abstract api client that may fail (`run_calls`);
  * `Syncer.sync` (diff outside the `try`, `_sync` inside, message
    composition in both branches) becomes `sync_run`.
-/
import Mathlib

set_option linter.unusedVariables false

/-- `_Role = namedtuple('Role', ('id', 'name', 'colour', 'permissions', 'position'))`.
Value-comparable and hashable in the source; structural equality here. -/
structure Role where
  id : Nat
  name : String
  colour : Nat
  permissions : Nat
  position : Int
deriving DecidableEq

/-- `_Diff = namedtuple('Diff', ('created', 'updated', 'deleted'))`; the
`deleted` component is `None` for kinds without deletion (users). -/
structure Diff (α β γ : Type) where
  created : α
  updated : β
  deleted : Option γ
deriving DecidableEq

/-- `RoleSyncer._get_diff`, after both snapshots have been packed into
hashable `_Role` records: the body from `guild_role_ids = ...` down to the
returned `_Diff`, with Python set operations as `Finset` operations. -/
def role_get_diff (guild_roles db_roles : Finset Role) :
    Diff (Finset Role) (Finset Role) (Finset Role) :=
  let guild_role_ids := guild_roles.image Role.id
  let api_role_ids := db_roles.image Role.id
  let new_role_ids := guild_role_ids \ api_role_ids
  let deleted_role_ids := api_role_ids \ guild_role_ids
  let roles_to_create := guild_roles.filter (fun role => role.id ∈ new_role_ids)
  let roles_to_update := (guild_roles \ db_roles) \ roles_to_create
  let roles_to_delete := db_roles.filter (fun role => role.id ∈ deleted_role_ids)
  ⟨roles_to_create, roles_to_update, some roles_to_delete⟩

/-- A backend user record, as yielded by `UserSyncer._get_users`
(`{id, name, discriminator, roles, in_guild}`). -/
structure DbUser where
  id : Nat
  name : String
  discriminator : Nat
  roles : List Nat
  in_guild : Bool
deriving DecidableEq

/-- A cached guild member as read by `UserSyncer._get_diff`: `member.id`,
`member.name`, `int(member.discriminator)` and the ids of `member.roles`. -/
structure Member where
  id : Nat
  name : String
  discriminator : Nat
  roles : List Nat
deriving DecidableEq

/-- `guild.get_member(id)`: cache lookup of a member by id. -/
def get_member (members : List Member) (i : Nat) : Option Member :=
  members.find? (fun m => m.id == i)

/-- The `updated_fields` dict built for one backend user record: each key is
present exactly when the corresponding `maybe_update` call (or the `roles`
set comparison) found a difference. -/
structure PartialFields where
  name : Option String := none
  discriminator : Option Nat := none
  in_guild : Option Bool := none
  roles : Option (List Nat) := none
deriving DecidableEq

/-- `if updated_fields:` — truthiness of the dict before `id` is added. -/
def PartialFields.hasSome (f : PartialFields) : Bool :=
  f.name.isSome || f.discriminator.isSome || f.in_guild.isSome || f.roles.isSome

/-- One entry of `users_to_update`: the `updated_fields` dict after
`updated_fields["id"] = db_user["id"]`. -/
structure PartialUpdate where
  fields : PartialFields
  id : Nat
deriving DecidableEq

/-- `maybe_update(db_field, guild_value)`: record `guild_value` when it
differs from the DB value. -/
def maybe_update {v : Type} [DecidableEq v] (db_value guild_value : v) : Option v :=
  if db_value ≠ guild_value then some guild_value else none

/-- The `updated_fields` computed for a backend record matched by a guild
member: `name`, `discriminator`, `in_guild=True` via `maybe_update`, and
`roles` via set comparison (`set(db_user["roles"]) != set(guild_roles)`). -/
def update_fields (db_user : DbUser) (guild_user : Member) : PartialFields :=
  { name := maybe_update db_user.name guild_user.name
    discriminator := maybe_update db_user.discriminator guild_user.discriminator
    in_guild := maybe_update db_user.in_guild true
    roles := if db_user.roles.toFinset ≠ guild_user.roles.toFinset
             then some guild_user.roles else none }

/-- The body of the `async for db_user in self._get_users()` loop, for one
backend record: the `users_to_update` entry it appends, if any. -/
def user_update_for (members : List Member) (db_user : DbUser) : Option PartialUpdate :=
  match get_member members db_user.id with
  | some guild_user =>
    let fs := update_fields db_user guild_user
    if fs.hasSome then some ⟨fs, db_user.id⟩ else none
  | none =>
    if db_user.in_guild then some ⟨{ in_guild := some false }, db_user.id⟩ else none

/-- `seen_guild_users` after the loop: the ids added by
`seen_guild_users.add(guild_user.id)` for every matched backend record. -/
def seen_ids (members : List Member) (db_users : List DbUser) : Finset Nat :=
  (db_users.filterMap (fun db_user => (get_member members db_user.id).map Member.id)).toFinset

/-- A `users_to_create` entry (the `new_user` dict): full record with
`in_guild: True`. -/
structure NewUser where
  id : Nat
  name : String
  discriminator : Nat
  roles : List Nat
  in_guild : Bool
deriving DecidableEq

/-- The `new_user` dict built from a guild member. -/
def new_user (member : Member) : NewUser :=
  ⟨member.id, member.name, member.discriminator, member.roles, true⟩

/-- `UserSyncer._get_diff`: updates collected over the backend sequence,
creations for unseen guild members, `deleted` always `None`. -/
def user_get_diff (members : List Member) (db_users : List DbUser) :
    Diff (List NewUser) (List PartialUpdate) (List NewUser) :=
  let users_to_update := db_users.filterMap (user_update_for members)
  let users_to_create :=
    (members.filter (fun member => member.id ∉ seen_ids members db_users)).map new_user
  ⟨users_to_create, users_to_update, none⟩

/-- One response of `GET bot/users?page=N`: a `results` batch and a
`next_page_no` (`null`/`0` meaning end-of-stream). -/
structure UsersPage where
  results : List DbUser
  next_page_no : Option Nat
deriving DecidableEq

/-- The `while query_params["page"]:` loop of `UserSyncer._get_users`,
with explicit fuel standing for the finitely many iterations an actual run
performs: the current cursor is requested, its `results` are yielded, and
the cursor becomes the response's `next_page_no`; a `none`/`0` cursor (falsy
in the source) stops the loop.  `none` is returned only when fuel runs out
before the loop stops. -/
def get_users_loop (api : Nat → UsersPage) : Nat → Option Nat → Option (List DbUser)
  | 0, _ => none
  | _ + 1, none => some []
  | _ + 1, some 0 => some []
  | fuel + 1, some (n + 1) =>
    match get_users_loop api fuel (api (n + 1)).next_page_no with
    | none => none
    | some rest => some ((api (n + 1)).results ++ rest)

/-- `UserSyncer._get_users`: the page cursor starts at 1. -/
def get_users (api : Nat → UsersPage) (fuel : Nat) : Option (List DbUser) :=
  get_users_loop api fuel (some 1)

/-- `follows api ps cur = true` iff, starting from cursor `cur`, the fetch
visits exactly the pages `ps` in order, each page's `next_page_no` naming
the next, and the page after the last is the `none`/`0` sentinel. -/
def follows (api : Nat → UsersPage) : List Nat → Option Nat → Bool
  | [], none => true
  | [], some c => c == 0
  | p :: ps, some c => c == p && p != 0 && follows api ps (api p).next_page_no
  | _ :: _, none => false

/-- `bot.api.ResponseCodeError`: an HTTP-style status plus the optional
response JSON (rendered as text here; `None`/empty is falsy in the source). -/
structure ResponseCodeError where
  status : Nat
  response_json : Option String
deriving DecidableEq

/-- The error taxonomy seen by `Syncer.sync`: a `ResponseCodeError` raised
by a backend call, or any other (unclassified) exception. -/
inductive SyncError where
  | backend (e : ResponseCodeError)
  | other (msg : String)
deriving DecidableEq

/-- One backend write call issued by `_sync`, with its verb and payload. -/
inductive ApiCall where
  | post_role (role : Role)
  | put_role (role : Role)
  | delete_role (id : Nat)
  | post_users (users : List NewUser)
  | patch_users (updates : List PartialUpdate)
deriving DecidableEq

/-- The URL each call of `_sync` targets. -/
def ApiCall.url : ApiCall → String
  | .post_role _ => "bot/roles"
  | .put_role role => "bot/roles/" ++ toString role.id
  | .delete_role i => "bot/roles/" ++ toString i
  | .post_users _ => "bot/users"
  | .patch_users _ => "bot/users/bulk_patch"

/-- The write calls of `RoleSyncer._sync` in issue order: one `POST` per
created role, then one `PUT` per updated role, then one `DELETE` per
deleted role (each loop runs over some enumeration of its partition). -/
def role_calls (created updated deleted : List Role) : List ApiCall :=
  created.map ApiCall.post_role
    ++ (updated.map ApiCall.put_role ++ deleted.map (fun role => ApiCall.delete_role role.id))

/-- The write calls of `UserSyncer._sync` in issue order: a single batched
`POST` when `diff.created` is truthy, then a single bulk-patch when
`diff.updated` is truthy. -/
def user_calls (created : List NewUser) (updated : List PartialUpdate) : List ApiCall :=
  (if created.isEmpty then [] else [ApiCall.post_users created])
    ++ (if updated.isEmpty then [] else [ApiCall.patch_users updated])

/-- Sequential issue of a call list against the api client, as the `_sync`
bodies do: each call is awaited in order and the first raised
`ResponseCodeError` aborts the rest.  The first component is the trace of
calls actually issued, the second the overall outcome. -/
def run_calls (api : ApiCall → Except ResponseCodeError Unit) :
    List ApiCall → List ApiCall × Except ResponseCodeError Unit
  | [] => ([], Except.ok ())
  | c :: cs =>
    match api c with
    | Except.ok _ =>
      let r := run_calls api cs
      (c :: r.1, r.2)
    | Except.error e => ([c], Except.error e)

/-- A `ResponseCodeError` escaping `_sync` reaches `sync`'s `except` clause
as a backend error; embed it into the taxonomy. -/
def lift_backend : Except ResponseCodeError Unit → Except SyncError Unit
  | Except.ok _ => Except.ok ()
  | Except.error e => Except.error (SyncError.backend e)

/-- `e.response_json or 'See log output for details'`: `None` and the empty
rendering are falsy. -/
def body_text : Option String → String
  | none => "See log output for details"
  | some b => if b.isEmpty then "See log output for details" else b

/-- `results = f"status {e.status}\n:::{e.response_json or ...}:::"` with
`:::` standing for the literal code fence of the source. -/
def fail_results (e : ResponseCodeError) : String :=
  "status " ++ toString e.status ++ "\n" ++ "```" ++ body_text e.response_json ++ "```"

/-- `f":x: Synchronisation of {self.name}s failed: {results}"`. -/
def fail_content (name : String) (e : ResponseCodeError) : String :=
  ":x: Synchronisation of " ++ name ++ "s failed: " ++ fail_results e

/-- `diff._asdict()` with `len` applied per present partition: the ordered
(name, count) entries, `none` standing for a `None` partition. -/
def diff_counts {α β γ : Type} (la : α → Nat) (lb : β → Nat) (lc : γ → Nat)
    (d : Diff α β γ) : List (String × Option Nat) :=
  [("created", some (la d.created)), ("updated", some (lb d.updated)),
   ("deleted", Option.map lc d.deleted)]

/-- The entries surviving `if val is not None`, with their counts. -/
def reported_pairs (entries : List (String × Option Nat)) : List (String × Nat) :=
  entries.filterMap (fun p => Option.map (fun n => (p.1, n)) p.2)

/-- `", ".join(f"{name} :{len(val)}:" ...)` — the success results string. -/
def success_results (entries : List (String × Option Nat)) : String :=
  String.intercalate ", "
    ((reported_pairs entries).map (fun p => p.1 ++ " `" ++ toString p.2 ++ "`"))

/-- `f":ok_hand: Synchronisation of {self.name}s complete: {results}"`. -/
def ok_content (name : String) (results : String) : String :=
  ":ok_hand: Synchronisation of " ++ name ++ "s complete: " ++ results

/-- The counts of a Role diff (every partition a set, `len` = card). -/
def role_counts (d : Diff (Finset Role) (Finset Role) (Finset Role)) :
    List (String × Option Nat) :=
  diff_counts Finset.card Finset.card Finset.card d

/-- The counts of a User diff (list partitions, absent `deleted`). -/
def user_counts (d : Diff (List NewUser) (List PartialUpdate) (List NewUser)) :
    List (String × Option Nat) :=
  diff_counts List.length List.length List.length d

/-- `Syncer.sync`: `_get_diff` runs outside the `try` block, so any of its
errors propagates; `_sync` runs inside `try` with only `ResponseCodeError`
caught and turned into the failure message; otherwise the success message
is composed from the diff's partition counts.  The returned value is the
final outcome text (`content`), an `error` meaning the exception reached
the caller and no outcome was reported. -/
def sync_run {α : Type} (name : String) (counts : α → List (String × Option Nat))
    (get_diff : Except SyncError α) (apply_diff : α → Except SyncError Unit) :
    Except SyncError String :=
  match get_diff with
  | Except.error e => Except.error e
  | Except.ok diff =>
    match apply_diff diff with
    | Except.ok _ => Except.ok (ok_content name (success_results (counts diff)))
    | Except.error (SyncError.backend e) => Except.ok (fail_content name e)
    | Except.error (SyncError.other msg) => Except.error (SyncError.other msg)

/-- A concrete api client for the C7 witness: creation calls succeed,
anything else fails with status 500. -/
def demo_api : ApiCall → Except ResponseCodeError Unit := fun cl =>
  match cl with
  | ApiCall.post_role _ => Except.ok ()
  | _ => Except.error ⟨500, some "x"⟩

/-- C2: the Role diff computer returns exactly
`created = {r ∈ live : r.id ∉ backend ids}`,
`deleted = {r ∈ backend : r.id ∉ live ids}`, and
`updated = (live \ backend) \ created`; in particular a live role
structurally equal to some backend role never appears in `updated`. -/
theorem role_diff_partitions (L B : Finset Role) :
    (role_get_diff L B).created = L.filter (fun r => r.id ∉ B.image Role.id)
    ∧ (role_get_diff L B).deleted = some (B.filter (fun r => r.id ∉ L.image Role.id))
    ∧ (role_get_diff L B).updated = (L \ B) \ (role_get_diff L B).created
    ∧ ∀ r ∈ L, r ∈ B → r ∉ (role_get_diff L B).updated := by
  refine ⟨?_, ?_, by rfl, ?_⟩
  · ext r
    simp only [role_get_diff, Finset.mem_filter, Finset.mem_sdiff, Finset.mem_image]
    constructor
    · rintro ⟨hrL, _, hnB⟩
      exact ⟨hrL, hnB⟩
    · rintro ⟨hrL, hnB⟩
      exact ⟨hrL, ⟨r, hrL, rfl⟩, hnB⟩
  · simp only [role_get_diff, Option.some_inj]
    ext r
    simp only [Finset.mem_filter, Finset.mem_sdiff, Finset.mem_image]
    constructor
    · rintro ⟨hrB, _, hnL⟩
      exact ⟨hrB, hnL⟩
    · rintro ⟨hrB, hnL⟩
      exact ⟨hrB, ⟨r, hrB, rfl⟩, hnL⟩
  · intro r hrL hrB hupd
    simp only [role_get_diff, Finset.mem_sdiff] at hupd
    exact hupd.1.2 hrB

/-- Witness for C2's final conjunct at a concrete live/backend pair. -/
theorem role_diff_partitions_witness :
    (⟨1, "a", 0, 0, 0⟩ : Role) ∈ ({⟨1, "a", 0, 0, 0⟩} : Finset Role)
    ∧ (⟨1, "a", 0, 0, 0⟩ : Role) ∉
        (role_get_diff {⟨1, "a", 0, 0, 0⟩} {⟨1, "a", 0, 0, 0⟩}).updated := by
  constructor
  · exact Finset.mem_singleton_self _
  · exact (role_diff_partitions _ _).2.2.2 _
      (Finset.mem_singleton_self _) (Finset.mem_singleton_self _)

theorem mem_role_created_iff (L B : Finset Role) (r : Role) :
    r ∈ (role_get_diff L B).created ↔ r ∈ L ∧ r.id ∉ B.image Role.id := by
  simp only [role_get_diff, Finset.mem_filter, Finset.mem_sdiff, Finset.mem_image]
  constructor
  · rintro ⟨hrL, _, hnB⟩
    exact ⟨hrL, by simpa using hnB⟩
  · rintro ⟨hrL, hnB⟩
    exact ⟨hrL, ⟨r, hrL, rfl⟩, by simpa using hnB⟩

theorem role_deleted_eq (L B : Finset Role) :
    (role_get_diff L B).deleted = some (B.filter (fun r => r.id ∉ L.image Role.id)) := by
  simp only [role_get_diff, Option.some_inj]
  ext r
  simp only [Finset.mem_filter, Finset.mem_sdiff, Finset.mem_image]
  constructor
  · rintro ⟨hrB, _, hnL⟩
    exact ⟨hrB, by simpa using hnL⟩
  · rintro ⟨hrB, hnL⟩
    exact ⟨hrB, ⟨r, hrB, rfl⟩, by simpa using hnL⟩

theorem mem_role_updated_iff (L B : Finset Role) (s : Role) :
    s ∈ (role_get_diff L B).updated ↔ s ∈ L ∧ s ∉ B ∧ s.id ∈ B.image Role.id := by
  have hc := mem_role_created_iff L B s
  show s ∈ ((L \ B) \ (role_get_diff L B).created) ↔ _
  rw [Finset.mem_sdiff, Finset.mem_sdiff, hc]
  constructor
  · rintro ⟨⟨hL, hB⟩, hnc⟩
    refine ⟨hL, hB, ?_⟩
    by_contra hid
    exact hnc ⟨hL, hid⟩
  · rintro ⟨hL, hB, hid⟩
    exact ⟨⟨hL, hB⟩, fun hcreated => hcreated.2 hid⟩

theorem get_member_eq_some {members : List Member} {i : Nat} {g : Member}
    (h : get_member members i = some g) : g ∈ members ∧ g.id = i := by
  refine ⟨List.mem_of_find?_eq_some h, ?_⟩
  have := List.find?_some h
  simpa using this

theorem get_member_eq_none {members : List Member} {i : Nat}
    (h : get_member members i = none) : ∀ m ∈ members, m.id ≠ i := by
  intro m hm
  have := List.find?_eq_none.mp h m hm
  simpa using this

theorem mem_seen_ids_iff (members : List Member) (db_users : List DbUser) (x : Nat) :
    x ∈ seen_ids members db_users ↔
      ∃ u ∈ db_users, ∃ g, get_member members u.id = some g ∧ g.id = x := by
  simp only [seen_ids, List.mem_toFinset, List.mem_filterMap, Option.map_eq_some']

theorem user_update_for_id {members : List Member} {db_user : DbUser} {p : PartialUpdate}
    (h : user_update_for members db_user = some p) : p.id = db_user.id := by
  unfold user_update_for at h
  rcases hg : get_member members db_user.id with _ | g <;> rw [hg] at h
  · by_cases hig : db_user.in_guild <;> simp [hig] at h
    exact congrArg PartialUpdate.id h.symm
  · by_cases hf : (update_fields db_user g).hasSome <;> simp [hf] at h
    exact congrArg PartialUpdate.id h.symm

theorem mem_user_created_iff (members : List Member) (db_users : List DbUser) (c : NewUser) :
    c ∈ (user_get_diff members db_users).created ↔
      ∃ m ∈ members, m.id ∉ seen_ids members db_users ∧ c = new_user m := by
  simp only [user_get_diff, List.mem_map, List.mem_filter, decide_eq_true_eq]
  constructor
  · rintro ⟨m, ⟨hm, hns⟩, rfl⟩
    exact ⟨m, hm, hns, rfl⟩
  · rintro ⟨m, hm, hns, rfl⟩
    exact ⟨m, ⟨hm, hns⟩, rfl⟩

theorem mem_user_updated_iff (members : List Member) (db_users : List DbUser) (p : PartialUpdate) :
    p ∈ (user_get_diff members db_users).updated ↔
      ∃ u ∈ db_users, user_update_for members u = some p := by
  simp only [user_get_diff, List.mem_filterMap]

/-- C4: a backend record whose id matches no live member and whose
`in_guild` is true yields exactly one update entry, carrying the id and
`in_guild := false` and no other field; with `in_guild` already false, no
entry is emitted. -/
theorem user_leave_detection (members : List Member) (db_users : List DbUser)
    (db_user : DbUser) (h : get_member members db_user.id = none) :
    (db_user.in_guild = true →
      user_update_for members db_user =
        some ⟨⟨none, none, some false, none⟩, db_user.id⟩
      ∧ (db_user ∈ db_users →
          (⟨⟨none, none, some false, none⟩, db_user.id⟩ : PartialUpdate)
            ∈ (user_get_diff members db_users).updated))
    ∧ (db_user.in_guild = false → user_update_for members db_user = none) := by
  constructor
  · intro hig
    have hupd : user_update_for members db_user =
        some ⟨⟨none, none, some false, none⟩, db_user.id⟩ := by
      simp [user_update_for, h, hig]
    refine ⟨hupd, fun hmem => ?_⟩
    exact (mem_user_updated_iff members db_users _).mpr ⟨db_user, hmem, hupd⟩
  · intro hig
    simp [user_update_for, h, hig]

/-- Witness for C4 at a concrete departed backend record. -/
theorem user_leave_detection_witness :
    (user_update_for [] ⟨5, "u", 1, [], true⟩ =
        some ⟨⟨none, none, some false, none⟩, 5⟩
      ∧ ((⟨⟨none, none, some false, none⟩, 5⟩ : PartialUpdate)
            ∈ (user_get_diff [] [⟨5, "u", 1, [], true⟩]).updated)) := by
  have h := (user_leave_detection [] [⟨5, "u", 1, [], true⟩] ⟨5, "u", 1, [], true⟩ rfl).1 rfl
  exact ⟨h.1, h.2 (by simp)⟩

/-- C5: a live member matched by no backend record yields a full creation
record with `in_guild = true`; a live member matched by some backend record
never appears in `created`. -/
theorem user_join_detection (members : List Member) (db_users : List DbUser) :
    (∀ m ∈ members, (∀ u ∈ db_users, u.id ≠ m.id) →
      new_user m ∈ (user_get_diff members db_users).created
      ∧ new_user m =
          ⟨m.id, m.name, m.discriminator, m.roles, true⟩)
    ∧ (∀ u ∈ db_users, ∀ g, get_member members u.id = some g →
        ∀ c ∈ (user_get_diff members db_users).created, c.id ≠ g.id) := by
  constructor
  · intro m hm hnb
    refine ⟨?_, rfl⟩
    refine (mem_user_created_iff members db_users _).mpr ⟨m, hm, ?_, rfl⟩
    intro hseen
    obtain ⟨u, hu, g, hg, hgid⟩ := (mem_seen_ids_iff members db_users m.id).mp hseen
    have := (get_member_eq_some hg).2
    exact hnb u hu (by omega)
  · intro u hu g hg c hc hcg
    obtain ⟨m, hm, hns, rfl⟩ := (mem_user_created_iff members db_users c).mp hc
    apply hns
    rw [mem_seen_ids_iff]
    exact ⟨u, hu, g, hg, by simpa [new_user] using hcg.symm⟩

/-- Witness for C5 at a concrete joined member. -/
theorem user_join_detection_witness :
    new_user ⟨9, "m", 1, []⟩ ∈ (user_get_diff [⟨9, "m", 1, []⟩] []).created
    ∧ new_user ⟨9, "m", 1, []⟩ =
        ⟨9, "m", 1, [], true⟩ := by
  exact (user_join_detection [⟨9, "m", 1, []⟩] []).1 _ (by simp) (by simp)

/-- C3: for snapshots without duplicate ids, the `created`, `updated` and
`deleted` partitions of one Diff are mutually exclusive by entity id, for
the Role diff computer and for the User diff computer (whose `deleted` is
absent). -/
theorem diff_partitions_mutually_exclusive :
    (∀ L B : Finset Role,
      (∀ r ∈ L, ∀ s ∈ L, r.id = s.id → r = s) →
      (∀ r ∈ B, ∀ s ∈ B, r.id = s.id → r = s) →
      ∀ del, (role_get_diff L B).deleted = some del →
        (∀ r ∈ (role_get_diff L B).created, ∀ s ∈ (role_get_diff L B).updated, r.id ≠ s.id)
        ∧ (∀ r ∈ (role_get_diff L B).created, ∀ t ∈ del, r.id ≠ t.id)
        ∧ (∀ s ∈ (role_get_diff L B).updated, ∀ t ∈ del, s.id ≠ t.id))
    ∧ (∀ (members : List Member) (db_users : List DbUser),
      (members.map Member.id).Nodup →
      (db_users.map DbUser.id).Nodup →
      ((∀ c ∈ (user_get_diff members db_users).created,
          ∀ p ∈ (user_get_diff members db_users).updated, c.id ≠ p.id)
        ∧ (user_get_diff members db_users).deleted = none)) := by
  constructor
  · intro L B hL hB del hdel
    have hdel2 : del = B.filter (fun r => r.id ∉ L.image Role.id) := by
      have := role_deleted_eq L B
      rw [hdel] at this
      exact Option.some_inj.mp this
    subst hdel2
    refine ⟨?_, ?_, ?_⟩
    · intro r hr s hs
      have hrc := (mem_role_created_iff L B r).mp hr
      have hsu := (mem_role_updated_iff L B s).mp hs
      intro hid
      exact hrc.2 (hid ▸ hsu.2.2)
    · intro r hr t ht
      have hrc := (mem_role_created_iff L B r).mp hr
      rw [Finset.mem_filter] at ht
      intro hid
      exact ht.2 (Finset.mem_image.mpr ⟨r, hrc.1, hid⟩)
    · intro s hs t ht
      have hsu := (mem_role_updated_iff L B s).mp hs
      rw [Finset.mem_filter] at ht
      intro hid
      exact ht.2 (Finset.mem_image.mpr ⟨s, hsu.1, hid⟩)
  · intro members db_users hmn hdn
    refine ⟨?_, rfl⟩
    intro c hc p hp
    obtain ⟨m, hm, hns, rfl⟩ := (mem_user_created_iff members db_users c).mp hc
    obtain ⟨u, hu, hupd⟩ := (mem_user_updated_iff members db_users p).mp hp
    have hpid : p.id = u.id := user_update_for_id hupd
    rcases hg : get_member members u.id with _ | g
    · have hne := get_member_eq_none hg m hm
      simp only [new_user]
      rw [hpid]
      exact hne
    · have hgseen : g.id ∈ seen_ids members db_users := by
        rw [mem_seen_ids_iff]
        exact ⟨u, hu, g, hg, rfl⟩
      have hgid := (get_member_eq_some hg).2
      simp only [new_user]
      rw [hpid, ← hgid]
      intro hmg
      exact hns (hmg ▸ hgseen)

/-- Witness for C3 at concrete duplicate-free snapshots. -/
theorem diff_partitions_mutually_exclusive_witness :
    ((∀ r ∈ (role_get_diff ∅ ∅).created, ∀ s ∈ (role_get_diff ∅ ∅).updated, r.id ≠ s.id)
      ∧ (∀ r ∈ (role_get_diff ∅ ∅).created, ∀ t ∈ (∅ : Finset Role), r.id ≠ t.id)
      ∧ (∀ s ∈ (role_get_diff ∅ ∅).updated, ∀ t ∈ (∅ : Finset Role), s.id ≠ t.id))
    ∧ ((∀ c ∈ (user_get_diff [⟨9, "m", 1, []⟩] [⟨5, "u", 1, [], true⟩]).created,
          ∀ p ∈ (user_get_diff [⟨9, "m", 1, []⟩] [⟨5, "u", 1, [], true⟩]).updated, c.id ≠ p.id)
        ∧ (user_get_diff [⟨9, "m", 1, []⟩] [⟨5, "u", 1, [], true⟩]).deleted = none) := by
  constructor
  · exact diff_partitions_mutually_exclusive.1 ∅ ∅ (by simp) (by simp) ∅ (by rfl)
  · exact diff_partitions_mutually_exclusive.2 [⟨9, "m", 1, []⟩] [⟨5, "u", 1, [], true⟩]
      (by simp) (by simp)

theorem get_users_loop_follows (api : Nat → UsersPage) :
    ∀ (ps : List Nat) (cur : Option Nat) (fuel : Nat),
      follows api ps cur = true → ps.length < fuel →
      get_users_loop api fuel cur = some ((ps.map (fun p => (api p).results)).flatten) := by
  intro ps
  induction ps with
  | nil =>
    intro cur fuel hf hlen
    match fuel, hlen with
    | fuel + 1, _ =>
      match cur with
      | none => simp [get_users_loop]
      | some c =>
        have : c = 0 := by simpa [follows] using hf
        subst this
        simp [get_users_loop]
  | cons p ps ih =>
    intro cur fuel hf hlen
    match cur with
    | none => simp [follows] at hf
    | some c =>
      simp only [follows, Bool.and_eq_true, beq_iff_eq, bne_iff_ne] at hf
      obtain ⟨⟨hc, hp⟩, hrest⟩ := hf
      subst hc
      match fuel, hlen with
      | fuel + 1, hlen =>
        have hlen2 : ps.length < fuel := by simpa using hlen
        obtain ⟨n, rfl⟩ := Nat.exists_eq_succ_of_ne_zero hp
        have hrec := ih (api (n + 1)).next_page_no fuel hrest hlen2
        simp only [get_users_loop, hrec, List.map_cons, List.flatten_cons]

/-- C6: for a finite page chain whose last page carries the `none`/`0`
sentinel, the fetcher starts at cursor 1, follows each `next_page_no` in
order, yields the concatenation of all pages' `results` in page order, and
terminates. -/
theorem get_users_pagination (api : Nat → UsersPage) (ps : List Nat)
    (h : follows api ps (some 1) = true) :
    get_users api (ps.length + 1) = some ((ps.map (fun p => (api p).results)).flatten) :=
  get_users_loop_follows api ps (some 1) (ps.length + 1) h (Nat.lt_succ_self _)

/-- Witness for C6: pages `[{id 1}, {id 2}]` (next page 2) then `[{id 3}]`
(next page `null`) yield exactly the three records in order. -/
theorem get_users_pagination_witness :
    follows
        (fun n => if n = 1 then ⟨[⟨1, "a", 1, [], true⟩, ⟨2, "b", 1, [], true⟩], some 2⟩
                  else if n = 2 then ⟨[⟨3, "c", 1, [], true⟩], none⟩
                  else ⟨[], none⟩)
        [1, 2] (some 1) = true
    ∧ get_users
        (fun n => if n = 1 then ⟨[⟨1, "a", 1, [], true⟩, ⟨2, "b", 1, [], true⟩], some 2⟩
                  else if n = 2 then ⟨[⟨3, "c", 1, [], true⟩], none⟩
                  else ⟨[], none⟩)
        3 = some [⟨1, "a", 1, [], true⟩, ⟨2, "b", 1, [], true⟩, ⟨3, "c", 1, [], true⟩] := by
  refine ⟨by decide, ?_⟩
  have := get_users_pagination
    (fun n => if n = 1 then ⟨[⟨1, "a", 1, [], true⟩, ⟨2, "b", 1, [], true⟩], some 2⟩
              else if n = 2 then ⟨[⟨3, "c", 1, [], true⟩], none⟩
              else ⟨[], none⟩)
    [1, 2] (by decide)
  simpa using this

theorem body_text_some {b : String} (h : b.isEmpty = false) : body_text (some b) = b := by
  simp [body_text, h]

theorem run_calls_first_error (api : ApiCall → Except ResponseCodeError Unit)
    (c : ApiCall) (post : List ApiCall) (e : ResponseCodeError)
    (hc : api c = Except.error e) :
    ∀ pre : List ApiCall, (∀ c2 ∈ pre, api c2 = Except.ok ()) →
      run_calls api (pre ++ c :: post) = (pre ++ [c], Except.error e) := by
  intro pre
  induction pre with
  | nil =>
    intro _
    simp [run_calls, hc]
  | cons a pre ih =>
    intro hpre
    have ha : api a = Except.ok () := hpre a (by simp)
    have hrest := ih (fun c2 hc2 => hpre c2 (by simp [hc2]))
    simp [run_calls, ha, hrest]

/-- C1 counterexample: a `BackendError` raised by a backend read during
diff computation (`_get_diff` runs outside the `try` block) is re-raised to
the caller instead of being converted into a Failed-outcome report. -/
theorem sync_read_backend_error_propagates :
    sync_run "role" role_counts
        (Except.error (SyncError.backend ⟨500, some "x"⟩))
        (fun _ => Except.ok ()) =
      Except.error (SyncError.backend ⟨500, some "x"⟩) := rfl

/-- C1 amended: `Syncer.sync` converts into a Failed-outcome report exactly
the `BackendError`s raised by the apply phase (`_sync`); errors raised
during diff computation — backend or not — propagate to the caller, as do
non-backend errors from the apply phase, and a propagated error produces no
reported outcome. -/
theorem sync_error_boundary {α : Type} (name : String)
    (counts : α → List (String × Option Nat)) (diff : α)
    (apply_diff : α → Except SyncError Unit) (e : ResponseCodeError)
    (msg : String) (ge : SyncError) :
    (apply_diff diff = Except.error (SyncError.backend e) →
      sync_run name counts (Except.ok diff) apply_diff =
        Except.ok (fail_content name e))
    ∧ (apply_diff diff = Except.error (SyncError.other msg) →
      sync_run name counts (Except.ok diff) apply_diff =
        Except.error (SyncError.other msg))
    ∧ sync_run name counts (Except.error ge) apply_diff = Except.error ge
    ∧ (apply_diff diff = Except.ok () →
      sync_run name counts (Except.ok diff) apply_diff =
        Except.ok (ok_content name (success_results (counts diff)))) := by
  refine ⟨?_, ?_, rfl, ?_⟩ <;> intro h <;> simp [sync_run, h]

/-- Witness for C1's amended statement at concrete runs. -/
theorem sync_error_boundary_witness :
    sync_run "role" role_counts (Except.ok (role_get_diff ∅ ∅))
        (fun _ => Except.error (SyncError.backend ⟨500, some "x"⟩)) =
      Except.ok (fail_content "role" ⟨500, some "x"⟩)
    ∧ sync_run "role" role_counts
        (Except.error (SyncError.other "boom"))
        (fun _ => Except.error (SyncError.backend ⟨500, some "x"⟩)) =
      Except.error (SyncError.other "boom") := by
  constructor
  · exact (sync_error_boundary "role" role_counts (role_get_diff ∅ ∅)
      (fun _ => Except.error (SyncError.backend ⟨500, some "x"⟩)) ⟨500, some "x"⟩
      "" (SyncError.other "boom")).1 rfl
  · exact (sync_error_boundary "role" role_counts (role_get_diff ∅ ∅)
      (fun _ => Except.error (SyncError.backend ⟨500, some "x"⟩)) ⟨500, some "x"⟩
      "" (SyncError.other "boom")).2.2.1

/-- C7: when a write call of the apply phase raises a `BackendError`, the
calls after it are not issued, and the run's outcome is the failure message,
which embeds the error's status and its body (or the pointer to logs when
the body is absent). -/
theorem apply_failure_abort_report {α : Type} (name : String)
    (counts : α → List (String × Option Nat)) (diff : α)
    (api : ApiCall → Except ResponseCodeError Unit)
    (pre post : List ApiCall) (c : ApiCall) (e : ResponseCodeError)
    (hpre : ∀ c2 ∈ pre, api c2 = Except.ok ())
    (hc : api c = Except.error e) :
    (run_calls api (pre ++ c :: post)).1 = pre ++ [c]
    ∧ (run_calls api (pre ++ c :: post)).2 = Except.error e
    ∧ sync_run name counts (Except.ok diff)
        (fun _ => lift_backend (run_calls api (pre ++ c :: post)).2) =
      Except.ok (fail_content name e)
    ∧ (∃ s1 s2, fail_content name e = s1 ++ toString e.status ++ s2)
    ∧ (∀ b, e.response_json = some b → b.isEmpty = false →
        ∃ s1 s2, fail_content name e = s1 ++ b ++ s2)
    ∧ (e.response_json = none →
        ∃ s1 s2, fail_content name e = s1 ++ "See log output for details" ++ s2) := by
  have hrun := run_calls_first_error api c post e hc pre hpre
  refine ⟨by rw [hrun], by rw [hrun], ?_, ?_, ?_, ?_⟩
  · rw [hrun]
    simp [sync_run, lift_backend]
  · refine ⟨":x: Synchronisation of " ++ name ++ "s failed: " ++ "status ",
      "\n" ++ "```" ++ body_text e.response_json ++ "```", ?_⟩
    simp only [fail_content, fail_results, String.append_assoc]
  · intro b hb hbne
    refine ⟨":x: Synchronisation of " ++ name ++ "s failed: "
      ++ ("status " ++ toString e.status) ++ "\n" ++ "```", "```", ?_⟩
    simp only [fail_content, fail_results]
    rw [hb, body_text_some hbne]
    simp only [String.append_assoc]
  · intro hb
    refine ⟨":x: Synchronisation of " ++ name ++ "s failed: "
      ++ ("status " ++ toString e.status) ++ "\n" ++ "```", "```", ?_⟩
    simp only [fail_content, fail_results]
    rw [hb]
    simp only [body_text, String.append_assoc]

/-- Witness for C7 at a concrete failing run: the `PUT` fails, the `DELETE`
after it is never issued, and the outcome is the failure message. -/
theorem apply_failure_abort_report_witness :
    (run_calls demo_api
        ([ApiCall.post_role ⟨1, "a", 0, 0, 0⟩]
          ++ ApiCall.put_role ⟨1, "a", 0, 0, 0⟩ :: [ApiCall.delete_role 7])).1
      = [ApiCall.post_role ⟨1, "a", 0, 0, 0⟩] ++ [ApiCall.put_role ⟨1, "a", 0, 0, 0⟩]
    ∧ sync_run "role" (fun _ : Unit => []) (Except.ok ())
        (fun _ => lift_backend (run_calls demo_api
          ([ApiCall.post_role ⟨1, "a", 0, 0, 0⟩]
            ++ ApiCall.put_role ⟨1, "a", 0, 0, 0⟩ :: [ApiCall.delete_role 7])).2)
      = Except.ok (fail_content "role" ⟨500, some "x"⟩) := by
  have h := apply_failure_abort_report "role" (fun _ : Unit => []) () demo_api
    [ApiCall.post_role ⟨1, "a", 0, 0, 0⟩] [ApiCall.delete_role 7]
    (ApiCall.put_role ⟨1, "a", 0, 0, 0⟩) ⟨500, some "x"⟩
    (by intro c2 hc2; simp at hc2; subst hc2; rfl) rfl
  exact ⟨h.1, h.2.2.1⟩

/-- C8: a successful run's result message counts every present partition,
a zero count included, and omits absent partitions entirely: the Role diff
always reports a `deleted` count (0 when no role is deleted), while the
User diff never contributes a `deleted` term for any input. -/
theorem report_counts_absent_vs_empty :
    (∀ L B : Finset Role, ∀ del, (role_get_diff L B).deleted = some del → del = ∅ →
      reported_pairs (role_counts (role_get_diff L B)) =
        [("created", (role_get_diff L B).created.card),
         ("updated", (role_get_diff L B).updated.card), ("deleted", 0)]
      ∧ ("deleted", 0) ∈ reported_pairs (role_counts (role_get_diff L B)))
    ∧ (∀ (members : List Member) (db_users : List DbUser),
      reported_pairs (user_counts (user_get_diff members db_users)) =
        [("created", (user_get_diff members db_users).created.length),
         ("updated", (user_get_diff members db_users).updated.length)]
      ∧ ∀ p ∈ reported_pairs (user_counts (user_get_diff members db_users)),
          p.1 ≠ "deleted") := by
  constructor
  · intro L B del hdel h0
    have hsome : (role_get_diff L B).deleted = some (∅ : Finset Role) := by
      rw [hdel, h0]
    constructor
    · simp [reported_pairs, role_counts, diff_counts, hsome]
    · simp [reported_pairs, role_counts, diff_counts, hsome]
  · intro members db_users
    have hnone : (user_get_diff members db_users).deleted = none := rfl
    have heq : reported_pairs (user_counts (user_get_diff members db_users)) =
        [("created", (user_get_diff members db_users).created.length),
         ("updated", (user_get_diff members db_users).updated.length)] := by
      simp [reported_pairs, user_counts, diff_counts, hnone]
    refine ⟨heq, ?_⟩
    intro p hp
    rw [heq] at hp
    simp only [List.mem_cons, List.not_mem_nil, or_false] at hp
    rcases hp with rfl | rfl <;> simp

/-- Witness for C8's role half at a pair of snapshots with no deletions. -/
theorem report_counts_absent_vs_empty_witness :
    reported_pairs (role_counts (role_get_diff ∅ ∅)) =
      [("created", (role_get_diff ∅ ∅).created.card),
       ("updated", (role_get_diff ∅ ∅).updated.card), ("deleted", 0)] :=
  (report_counts_absent_vs_empty.1 ∅ ∅ ∅ (by simp [role_get_diff]) rfl).1

theorem role_calls_post_bound {created updated deleted : List Role} {i : Nat} {x : Role}
    (h : (role_calls created updated deleted)[i]? = some (ApiCall.post_role x)) :
    i < created.length := by
  by_contra hni
  push_neg at hni
  rw [role_calls, List.getElem?_append,
    if_neg (by simp only [List.length_map]; omega)] at h
  have hmem := List.getElem?_mem h
  simp [List.mem_append, List.mem_map] at hmem

theorem role_calls_put_lower {created updated deleted : List Role} {j : Nat} {y : Role}
    (h : (role_calls created updated deleted)[j]? = some (ApiCall.put_role y)) :
    created.length ≤ j := by
  by_contra hnj
  push_neg at hnj
  rw [role_calls, List.getElem?_append,
    if_pos (by simp only [List.length_map]; omega)] at h
  have hmem := List.getElem?_mem h
  simp [List.mem_map] at hmem

theorem role_calls_put_upper {created updated deleted : List Role} {i : Nat} {y : Role}
    (h : (role_calls created updated deleted)[i]? = some (ApiCall.put_role y)) :
    i < created.length + updated.length := by
  by_contra hni
  push_neg at hni
  rw [role_calls, List.getElem?_append,
    if_neg (by simp only [List.length_map]; omega)] at h
  rw [List.getElem?_append,
    if_neg (by simp only [List.length_map]; omega)] at h
  have hmem := List.getElem?_mem h
  simp [List.mem_map] at hmem

theorem role_calls_delete_lower {created updated deleted : List Role} {j : Nat} {n : Nat}
    (h : (role_calls created updated deleted)[j]? = some (ApiCall.delete_role n)) :
    created.length + updated.length ≤ j := by
  by_contra hnj
  push_neg at hnj
  rw [role_calls, List.getElem?_append] at h
  by_cases hj : j < created.length
  · rw [if_pos (by simp only [List.length_map]; omega)] at h
    have hmem := List.getElem?_mem h
    simp [List.mem_map] at hmem
  · rw [if_neg (by simp only [List.length_map]; omega)] at h
    rw [List.getElem?_append,
      if_pos (by simp only [List.length_map]; omega)] at h
    have hmem := List.getElem?_mem h
    simp [List.mem_map] at hmem

/-- C9: `RoleSyncer._sync` issues its write calls in fixed cross-partition
order: every creation `POST` before every update `PUT`, and every update
`PUT` before every deletion `DELETE`. -/
theorem role_apply_order (created updated deleted : List Role) :
    (∀ (i j : Nat) (x y : Role),
      (role_calls created updated deleted)[i]? = some (ApiCall.post_role x) →
      (role_calls created updated deleted)[j]? = some (ApiCall.put_role y) → i < j)
    ∧ (∀ (i j : Nat) (y : Role) (n : Nat),
      (role_calls created updated deleted)[i]? = some (ApiCall.put_role y) →
      (role_calls created updated deleted)[j]? = some (ApiCall.delete_role n) → i < j)
    ∧ (∀ (i j : Nat) (x : Role) (n : Nat),
      (role_calls created updated deleted)[i]? = some (ApiCall.post_role x) →
      (role_calls created updated deleted)[j]? = some (ApiCall.delete_role n) → i < j) := by
  refine ⟨?_, ?_, ?_⟩ <;> intro i j x y hi hj
  · have h1 := role_calls_post_bound hi
    have h2 := role_calls_put_lower hj
    omega
  · have h1 := role_calls_put_upper hi
    have h2 := role_calls_delete_lower hj
    omega
  · have h1 := role_calls_post_bound hi
    have h2 := role_calls_delete_lower hj
    omega

/-- Witness for C9 at a one-role-per-partition diff. -/
theorem role_apply_order_witness :
    (role_calls [⟨1, "a", 0, 0, 0⟩] [⟨2, "b", 0, 0, 0⟩] [⟨3, "c", 0, 0, 0⟩])[0]?
      = some (ApiCall.post_role ⟨1, "a", 0, 0, 0⟩)
    ∧ (role_calls [⟨1, "a", 0, 0, 0⟩] [⟨2, "b", 0, 0, 0⟩] [⟨3, "c", 0, 0, 0⟩])[1]?
      = some (ApiCall.put_role ⟨2, "b", 0, 0, 0⟩)
    ∧ (role_calls [⟨1, "a", 0, 0, 0⟩] [⟨2, "b", 0, 0, 0⟩] [⟨3, "c", 0, 0, 0⟩])[2]?
      = some (ApiCall.delete_role 3)
    ∧ (0 : Nat) < 1 ∧ (1 : Nat) < 2 := by
  refine ⟨rfl, rfl, rfl, ?_, ?_⟩
  · exact (role_apply_order [⟨1, "a", 0, 0, 0⟩] [⟨2, "b", 0, 0, 0⟩] [⟨3, "c", 0, 0, 0⟩]).1
      0 1 ⟨1, "a", 0, 0, 0⟩ ⟨2, "b", 0, 0, 0⟩ rfl rfl
  · exact (role_apply_order [⟨1, "a", 0, 0, 0⟩] [⟨2, "b", 0, 0, 0⟩] [⟨3, "c", 0, 0, 0⟩]).2.1
      1 2 ⟨2, "b", 0, 0, 0⟩ 3 rfl rfl

/-- C10: `UserSyncer._sync` issues the batched creation `POST` only when
`created` is non-empty and the bulk `PATCH` only when `updated` is
non-empty; with both partitions empty no backend call is issued. -/
theorem user_apply_conditional (created : List NewUser) (updated : List PartialUpdate) :
    (created = [] → updated = [] → user_calls created updated = [])
    ∧ (ApiCall.post_users created ∈ user_calls created updated ↔ created ≠ [])
    ∧ (ApiCall.patch_users updated ∈ user_calls created updated ↔ updated ≠ []) := by
  rcases created with _ | ⟨c, cs⟩ <;> rcases updated with _ | ⟨u, us⟩ <;>
    simp [user_calls]

/-- Witness for C10 at concrete diffs. -/
theorem user_apply_conditional_witness :
    user_calls [] [] = []
    ∧ (ApiCall.post_users [⟨9, "m", 1, [], true⟩] ∈
        user_calls [⟨9, "m", 1, [], true⟩] [] ↔ ([⟨9, "m", 1, [], true⟩] : List NewUser) ≠ []) := by
  constructor
  · exact (user_apply_conditional [] []).1 rfl rfl
  · exact (user_apply_conditional [⟨9, "m", 1, [], true⟩] []).2.1
